import Mathlib

/-!
Shallow embedding of `src/task_manager.py` (its class `Task` is modelled here
as `TaskRec`, since `Task` is taken by the Lean core library; `TaskManager`
instance state is modelled as `TMState`).

Python callables are identified by their `__name__` string; the behaviour of a
callable when invoked is supplied by an environment `Env` mapping the callable
name and the observable manager state at call time to either a returned value
or a raised exception.  Every invocation of a task action is recorded in a
ghost `log` field (pairs of the registry key under which the record was run and
the record's action-callable name), so that ordering and "never invoked"
claims can be stated.
-/

/-- Python values that flow through the engine (`None`, strings, numbers). -/
inductive Val where
  | none
  | str (s : String)
  | nat (n : Nat)
deriving DecidableEq, Repr

/-- Python exceptions raised by the code under `src/`:
`user` is an arbitrary exception raised inside a task body;
`unknownTask t` is the `Exception(f"Unknown task '{t}'. Check registered tasks")`
raised by `TaskManager._run_tasks` validation;
`notFound t` is the `Exception(f"_get_output_for could not find '{t}' ...")`
raised by `TaskManager._get_output_for`;
`taskFailed t cause` is the `TaskFailedError` tagged with task name `t` and
raised `from cause`;
`nonSuccess t` is the `TaskFailedError` saying task `t` was tagged non successful;
`attributeError` is the `AttributeError` Python raises when an attribute access
fails (used by the model of `flush_tasks`, see below). -/
inductive PyErr where
  | user (msg : String)
  | unknownTask (name : String)
  | notFound (name : String)
  | taskFailed (name : String) (cause : PyErr)
  | nonSuccess (name : String)
  | attributeError (msg : String)
deriving DecidableEq, Repr

/-- Model of class `Task` from `task_manager.py`: `_action` (kept as the callable's name),
`_success : Optional[bool]`, `_has_run : bool`, `_output` (initially `None`),
and the optional `rollback` callable (kept as its name). -/
structure TaskRec where
  action : String
  success : Option Bool
  hasRun : Bool
  output : Val
  rollback : Option String
deriving DecidableEq, Repr

/-- Model of `Task.__init__(action, rollback=None)`: `_success = None`, `_has_run = False`,
`_output = None`. -/
def mkTask (action : String) (rollback : Option String) : TaskRec :=
  { action := action, success := Option.none, hasRun := false,
    output := Val.none, rollback := rollback }

/-- Model of `Task.flush`: `_flush_output` sets `_output = None`; `_flush_status` sets
`_success = None` and `_has_run = False`. -/
def TaskRec.flush (t : TaskRec) : TaskRec :=
  { t with output := Val.none, success := Option.none, hasRun := false }

/-- Outcome of invoking a callable: a normal return or a raised exception. -/
inductive ActRes where
  | ok (v : Val)
  | err (e : PyErr)
deriving DecidableEq, Repr

/-- Model of `Task.run(get_output_for, **kwargs)` given the outcome `res` of the call
`self._action(...)`: on normal return, `_output` is assigned the return value
and `_success = True`, `_has_run = True`; on a raised exception, `_success =
False`, `_has_run = True`, `_output` is left unmodified, and the exception is
re-raised (returned here as `some e`). -/
def TaskRec.run (t : TaskRec) (res : ActRes) : TaskRec × Option PyErr :=
  match res with
  | .ok v => ({ t with output := v, success := some true, hasRun := true }, Option.none)
  | .err e => ({ t with success := some false, hasRun := true }, some e)

/-- Model of `Task.get_output`: returns `self._output`. -/
def TaskRec.getOutput (t : TaskRec) : Val :=
  t.output

/-- Model of `Task.has_run`. -/
def TaskRec.hasRunQ (t : TaskRec) : Bool :=
  t.hasRun

/-- Model of `Task.is_success`: returns `self._success` (an `Optional[bool]`). -/
def TaskRec.isSuccess (t : TaskRec) : Option Bool :=
  t.success

/-- A Python `dict[str, TaskRec]` as an insertion-ordered association list. -/
abbrev TaskDict := List (String × TaskRec)

/-- Lookup `d[k]`. -/
def dictGet (d : TaskDict) (k : String) : Option TaskRec :=
  (d.find? (fun p => p.1 == k)).map (fun p => p.2)

/-- Assignment `d[k] = v`: assignment to an existing key keeps its position, a new key is
appended (Python dict insertion-order semantics). -/
def dictSet (d : TaskDict) (k : String) (v : TaskRec) : TaskDict :=
  if d.any (fun p => p.1 == k) then
    d.map (fun p => if p.1 == k then (k, v) else p)
  else
    d ++ [(k, v)]

/-- State of a `TaskManager` instance: `tasks` is the registry dict, `onRollback` is the
`_on_rollback` list of task names, and `log` is a ghost trace of action
invocations (registry key, action-callable name), used only for stating
observational claims. -/
structure TMState where
  tasks : TaskDict
  onRollback : List String
  log : List (String × String)
deriving DecidableEq, Repr

/-- Model of `TaskManager.__init__`: empty registry, empty rollback list. -/
def tmInit : TMState :=
  { tasks := [], onRollback := [], log := [] }

/-- Behaviour of the opaque user callables: given the callable's name and the
observable state at call time (the call has not yet been appended to the ghost
log), return the call's outcome. -/
abbrev Env := String → TMState → ActRes

/-- Model of `TaskManager._register(task_name, task)`: `self.tasks[task_name] = task`. -/
def tmRegister (st : TMState) (taskName : String) (t : TaskRec) : TMState :=
  { st with tasks := dictSet st.tasks taskName t }

/-- Model of `TaskManager.register_task(function, **kwargs)`: registers
`TaskRec(action=function, **kwargs)` under `function.__name__`. -/
def registerTask (st : TMState) (fname : String) (rollback : Option String) : TMState :=
  tmRegister st fname (mkTask fname rollback)

/-- Model of `TaskManager._get_output_for(task_name)`: returns
`self.tasks[task_name].get_output()`; a `KeyError` on the dict access is
wrapped into `Exception(f"_get_output_for could not find '{task_name}' ...")`.
Note that for a registered task this returns `_output` unconditionally,
whether or not the task ever ran. -/
def getOutputFor (st : TMState) (taskName : String) : Except PyErr Val :=
  match dictGet st.tasks taskName with
  | some t => .ok t.getOutput
  | Option.none => .error (.notFound taskName)

/-- Model of `TaskManager._register_rollback_task(function)`: registers the rollback
callable as an ordinary task (fresh `TaskRec(action=function)`, no kwargs, hence
no rollback of its own) under `function.__name__`, then, if that name is not
already in `_on_rollback`, `insert(0, ...)`s it at the front. -/
def registerRollbackTask (st : TMState) (fname : String) : TMState :=
  let st1 := registerTask st fname Option.none
  if fname ∈ st1.onRollback then st1
  else { st1 with onRollback := fname :: st1.onRollback }

/-- Model of `TaskManager.flush_tasks`: the source iterates `self.tasks.items()` and
calls `task.flush()` on each item.  Each item of `dict.items()` is a
`(name, TaskRec)` tuple, and tuples have no `flush` attribute, so the first
iteration raises `AttributeError` and no record is flushed; on an empty
registry the loop body never runs and the call returns normally. -/
def flushTasks (st : TMState) : TMState × Option PyErr :=
  match st.tasks with
  | [] => (st, Option.none)
  | _ :: _ => (st, some (.attributeError "tuple object has no attribute flush"))

/-- One iteration of the run loop of `TaskManager._run_tasks` for name `t`:
fetch `self.tasks[t]` (a `KeyError` would be wrapped by the
`except Exception` clause); skip when `has_run() and is_success()`;
otherwise invoke the action (recorded in the ghost log) via `TaskRec.run`;
on success, the dead-in-practice `is_success` re-check, then rollback
registration when the record carries a rollback; any exception is wrapped as
a `TaskFailedError` tagged with `t`, raised from the original exception. -/
def runStep (env : Env) (st : TMState) (t : String) : TMState × Option PyErr :=
  match dictGet st.tasks t with
  | Option.none => (st, some (.taskFailed t (.user "KeyError")))
  | some current =>
    if current.hasRun && current.success == some true then
      (st, Option.none)
    else
      let res := env current.action st
      let st1 := { st with log := st.log ++ [(t, current.action)] }
      match TaskRec.run current res with
      | (c1, Option.none) =>
        let st2 := { st1 with tasks := dictSet st1.tasks t c1 }
        if c1.success == some true then
          match c1.rollback with
          | some rb => (registerRollbackTask st2 rb, Option.none)
          | Option.none => (st2, Option.none)
        else
          (st2, some (.taskFailed t (.nonSuccess t)))
      | (c1, some e) =>
        let st2 := { st1 with tasks := dictSet st1.tasks t c1 }
        (st2, some (.taskFailed t e))

/-- The run loop of `TaskManager._run_tasks`: process the names in order,
stopping at the first raised exception. -/
def runLoop (env : Env) : TMState → List String → TMState × Option PyErr
  | st, [] => (st, Option.none)
  | st, t :: rest =>
    match runStep env st t with
    | (st1, Option.none) => runLoop env st1 rest
    | (st1, some e) => (st1, some e)

/-- The validation loop of `TaskManager._run_tasks`: for each name in order,
check `self.tasks[t]`; the first `KeyError` is wrapped as
`Exception(f"Unknown task '{t}'. Check registered tasks")`. -/
def validate (st : TMState) : List String → Option PyErr
  | [] => Option.none
  | t :: rest =>
    if (dictGet st.tasks t).isSome then validate st rest
    else some (.unknownTask t)

/-- Model of `TaskManager._run_tasks(tasks, **kwargs)`: validate all names first, then
run them in order. -/
def runTasksCore (env : Env) (st : TMState) (names : List String) : TMState × Option PyErr :=
  match validate st names with
  | some e => (st, some e)
  | Option.none => runLoop env st names

/-- Model of `TaskManager._rollback_dependencies(**kwargs)`:
`self._run_tasks(self._on_rollback, **kwargs)`.  (Python passes the live list;
the snapshot here is observably the same whenever executing the chain does not
itself insert into `_on_rollback`, and the first such insertion, which is what
the claims below inspect, happens identically in both readings.) -/
def rollbackDependencies (env : Env) (st : TMState) : TMState × Option PyErr :=
  runTasksCore env st st.onRollback

/-- Model of `TaskManager.run_tasks(tasks, **kwargs)`: calls `_run_tasks`; on any
exception, first `_rollback_dependencies()`, then the bare `raise` re-raises
the original exception — unless the rollback itself raised, in which case the
rollback's exception propagates instead. -/
def runTasks (env : Env) (st : TMState) (names : List String) : TMState × Option PyErr :=
  match runTasksCore env st names with
  | (st1, Option.none) => (st1, Option.none)
  | (st1, some e) =>
    match rollbackDependencies env st1 with
    | (st2, Option.none) => (st2, some e)
    | (st2, some e2) => (st2, some e2)

/-! ### Derived state descriptions and invariant predicates -/

/-- The state reached when the record `cur` stored under key `t` executes
successfully returning `v` (ghost log appended, record updated in place),
before any rollback registration. -/
def afterOk (st : TMState) (t : String) (cur : TaskRec) (v : Val) : TMState :=
  { st with
    log := st.log ++ [(t, cur.action)],
    tasks := dictSet st.tasks t { cur with output := v, success := some true, hasRun := true } }

/-- The state reached when the record `cur` stored under key `t` executes and
its action raises (ghost log appended, status updated, output untouched). -/
def afterErr (st : TMState) (t : String) (cur : TaskRec) : TMState :=
  { st with
    log := st.log ++ [(t, cur.action)],
    tasks := dictSet st.tasks t { cur with success := some false, hasRun := true } }

/-- Every record named by the given list carries no rollback action. -/
def chainSafe (st : TMState) (l : List String) : Prop :=
  ∀ n ∈ l, ∀ r, dictGet st.tasks n = some r → r.rollback = Option.none

/-- No registered record names `tgt` as its rollback callable. -/
def noRollbackNamed (st : TMState) (tgt : String) : Prop :=
  ∀ n r, dictGet st.tasks n = some r → r.rollback ≠ some tgt

/-! ### Concrete scenarios used to settle the claims

`envA`/`stABC`: tasks `A` (rollback callable `rA`) and `B` (rollback `rB`)
succeed, `C` (no rollback) raises — the spec's own LIFO-compensation scenario.
-/

def envA : Env := fun n _ => if n == "C" then .err (.user "boom") else .ok (.str n)

def stABC : TMState :=
  registerTask (registerTask (registerTask tmInit "A" (some "rA")) "B" (some "rB"))
    "C" Option.none

/-- Environment where only callable `B` raises. -/
def env9 : Env := fun n _ => if n == "B" then .err (.user "boomB") else .ok (.str n)

/-- The state of `stABC` after running `["A"]` under `env9`. -/
def st9 : TMState := (runLoop env9 stABC ["A"]).1

/-- Environment where every callable returns normally. -/
def env4 : Env := fun _ _ => .ok (Val.str "v")

/-- A manager that registered `A` with rollback callable `rA` and ran the batch
`["A"]` to success: the compensation chain is `["rA"]` and `rA` never ran. -/
def st4 : TMState := (runTasks env4 (registerTask tmInit "A" (some "rA")) ["A"]).1

/-- Environment where only callable `f` raises. -/
def env7 : Env := fun n _ => if n == "f" then .err (.user "boom") else .ok (.str n)

/-- A manager that ran `a` (rollback `ra`) to success (chain `["ra"]`), then
re-registered the name `ra` via `register_task` with a rollback callable `rb2`,
and registered a failing task `f`. -/
def st7 : TMState :=
  registerTask
    (registerTask (runTasks env7 (registerTask tmInit "a" (some "ra")) ["a"]).1
      "f" Option.none)
    "ra" (some "rb2")

/-- Environment where callable `T` returns `"x"` on its first invocation and
`"y"` once some invocation of `T` is already in the ghost log; every other
callable echoes its name. -/
def env8 : Env := fun n st =>
  if n == "T" then
    (if st.log.any (fun p => p.2 == "T") then .ok (.str "y") else .ok (.str "x"))
  else .ok (.str n)

/-- A manager that registered `T` (no rollback) and ran `["T"]` to success. -/
def st8base : TMState := (runTasks env8 (registerTask tmInit "T" Option.none) ["T"]).1

/-- State `st8base` after additionally registering a task `A` whose rollback callable
is named `T` — the same name as the already-succeeded task. -/
def st8 : TMState := registerTask st8base "A" (some "T")

/-- Environment where callables `f` and `r2` raise and everything else
returns normally. -/
def envC5 : Env := fun n _ =>
  if n == "f" || n == "r2" then .err (.user "boom") else .ok (.str n)

/-- Tasks `a1`, `a2`, `a3` with rollback callables `r1`, `r2`, `r3`, and a
failing task `f`. -/
def stC5 : TMState :=
  registerTask
    (registerTask (registerTask (registerTask tmInit "a1" (some "r1")) "a2" (some "r2"))
      "a3" (some "r3"))
    "f" Option.none

/-- The state after the failing batch `["a1","a2","a3","f"]` on `stC5`, before
compensation: chain `["r3","r2","r1"]`. -/
def st1C5 : TMState := (runTasksCore envC5 stC5 ["a1", "a2", "a3", "f"]).1

/-- The state in which compensation stops: `r3` compensated, `r2` raised. -/
def s3C5 : TMState := (runLoop envC5 st1C5 ["r3", "r2"]).1

/-! ### Helper lemmas about the dict model and the run loop -/

theorem find?_set_ne (d : TaskDict) (k k' : String) (v : TaskRec) (h : k' ≠ k) :
    (d.map (fun p => if p.1 == k then (k, v) else p)).find? (fun p => p.1 == k') =
      d.find? (fun p => p.1 == k') := by
  induction d with
  | nil => rfl
  | cons p d ih =>
    by_cases hp : p.1 = k
    · have h1 : (if (p.1 == k) then ((k, v) : String × TaskRec) else p) = (k, v) := by
        simp [hp]
      have h2 : ¬ (((k, v) : String × TaskRec).1 == k') = true := by
        simp [beq_iff_eq]
        exact fun hq => h hq.symm
      have h3 : ¬ (p.1 == k') = true := by
        simp [beq_iff_eq, hp]
        exact fun hq => h hq.symm
      rw [List.map_cons, h1, List.find?_cons_of_neg (a := (k, v)) _ h2,
        List.find?_cons_of_neg (a := p) _ h3, ih]
    · have h1 : (if (p.1 == k) then ((k, v) : String × TaskRec) else p) = p := by
        simp [hp]
      rw [List.map_cons, h1]
      by_cases hpk : p.1 = k'
      · rw [List.find?_cons_of_pos, List.find?_cons_of_pos] <;> simp [hpk]
      · rw [List.find?_cons_of_neg, List.find?_cons_of_neg, ih] <;> simp [hpk]

theorem find?_set_self (d : TaskDict) (k : String) (v : TaskRec)
    (h : d.any (fun p => p.1 == k) = true) :
    (d.map (fun p => if p.1 == k then (k, v) else p)).find? (fun p => p.1 == k) =
      some (k, v) := by
  induction d with
  | nil => simp at h
  | cons p d ih =>
    by_cases hp : p.1 = k
    · have h1 : (if (p.1 == k) then ((k, v) : String × TaskRec) else p) = (k, v) := by
        simp [hp]
      rw [List.map_cons, h1, List.find?_cons_of_pos]
      simp
    · have h1 : (if (p.1 == k) then ((k, v) : String × TaskRec) else p) = p := by
        simp [hp]
      have h2 : d.any (fun p => p.1 == k) = true := by
        simpa [List.any_cons, hp] using h
      have h3 : ¬ (p.1 == k) = true := by simp [hp]
      rw [List.map_cons, h1, List.find?_cons_of_neg (a := p) _ h3, ih h2]

theorem dictGet_dictSet (d : TaskDict) (k k' : String) (v : TaskRec) :
    dictGet (dictSet d k v) k' = if k' = k then some v else dictGet d k' := by
  unfold dictGet dictSet
  by_cases hany : d.any (fun p => p.1 == k) = true
  · rw [if_pos hany]
    by_cases hk : k' = k
    · subst hk
      rw [find?_set_self d k' v hany]
      simp
    · rw [find?_set_ne d k k' v hk, if_neg hk]
  · rw [if_neg hany, List.find?_append]
    by_cases hk : k' = k
    · subst hk
      have hnone : d.find? (fun p => p.1 == k') = Option.none := by
        rw [List.find?_eq_none]
        intro x hx hpx
        exact hany (List.any_eq_true.mpr ⟨x, hx, hpx⟩)
      simp [hnone]
    · have hsing : List.find? (fun p => p.1 == k') [(k, v)] = Option.none := by
        simp [beq_iff_eq]
        exact fun hq => hk hq.symm
      simp [hsing, hk]

theorem dictGet_dictSet_self (d : TaskDict) (k : String) (v : TaskRec) :
    dictGet (dictSet d k v) k = some v := by
  rw [dictGet_dictSet]
  simp

theorem dictGet_dictSet_ne (d : TaskDict) (k k' : String) (v : TaskRec) (h : k' ≠ k) :
    dictGet (dictSet d k v) k' = dictGet d k' := by
  rw [dictGet_dictSet, if_neg h]

/-- The run loop processes an appended list by finishing the first part and,
only when no exception was raised there, continuing with the second part. -/
theorem runLoop_append (env : Env) (st : TMState) (l1 l2 : List String) :
    runLoop env st (l1 ++ l2) =
      match runLoop env st l1 with
      | (s, Option.none) => runLoop env s l2
      | (s, some e) => (s, some e) := by
  induction l1 generalizing st with
  | nil => simp [runLoop]
  | cons t rest ih =>
    rw [List.cons_append]
    show runLoop env st (t :: (rest ++ l2)) = _
    rw [runLoop]
    rcases h : runStep env st t with ⟨st1, e?⟩
    cases e? with
    | none =>
      simp only []
      rw [ih st1]
      conv_rhs => rw [runLoop, h]
    | some e =>
      simp only []
      conv_rhs => rw [runLoop, h]

/-- Validation succeeds when every requested name is registered. -/
theorem validate_eq_none (st : TMState) (names : List String)
    (h : ∀ n ∈ names, (dictGet st.tasks n).isSome = true) :
    validate st names = Option.none := by
  induction names with
  | nil => rfl
  | cons t rest ih =>
    have ht : (dictGet st.tasks t).isSome = true := h t (List.mem_cons_self t rest)
    simp only [validate, ht, if_pos]
    exact ih (fun n hn => h n (List.mem_cons_of_mem t hn))

/-- Validation fails with an unknown-task error as soon as some requested name
is unregistered (the reported name is the first unregistered one). -/
theorem validate_fails_of_missing (st : TMState) (names : List String) (n : String)
    (hmem : n ∈ names) (hmiss : dictGet st.tasks n = Option.none) :
    ∃ t, validate st names = some (.unknownTask t) ∧ dictGet st.tasks t = Option.none := by
  induction names with
  | nil => cases hmem
  | cons a rest ih =>
    by_cases ha : (dictGet st.tasks a).isSome = true
    · have hstep : validate st (a :: rest) = validate st rest := by
        simp only [validate, ha, if_pos]
      rw [hstep]
      rcases List.mem_cons.mp hmem with rfl | hm
      · rw [hmiss] at ha
        simp at ha
      · exact ih hm
    · have hnone : dictGet st.tasks a = Option.none := by
        cases hq : dictGet st.tasks a with
        | none => rfl
        | some r => exact absurd (by simp [hq]) ha
      refine ⟨a, ?_, hnone⟩
      simp [validate, hnone]

theorem runStep_missing (env : Env) (st : TMState) (t : String)
    (hget : dictGet st.tasks t = Option.none) :
    runStep env st t = (st, some (.taskFailed t (.user "KeyError"))) := by
  simp [runStep, hget]

theorem runStep_skip (env : Env) (st : TMState) (t : String) (cur : TaskRec)
    (hget : dictGet st.tasks t = some cur)
    (hskip : (cur.hasRun && cur.success == some true) = true) :
    runStep env st t = (st, Option.none) := by
  simp [runStep, hget, hskip]

theorem runStep_ok_noRb (env : Env) (st : TMState) (t : String) (cur : TaskRec) (v : Val)
    (hget : dictGet st.tasks t = some cur)
    (hskip : (cur.hasRun && cur.success == some true) = false)
    (hres : env cur.action st = .ok v)
    (hrb : cur.rollback = Option.none) :
    runStep env st t = (afterOk st t cur v, Option.none) := by
  simp [runStep, hget, hskip, hres, TaskRec.run, hrb, afterOk]

theorem runStep_ok_rb (env : Env) (st : TMState) (t : String) (cur : TaskRec) (v : Val)
    (rb : String)
    (hget : dictGet st.tasks t = some cur)
    (hskip : (cur.hasRun && cur.success == some true) = false)
    (hres : env cur.action st = .ok v)
    (hrb : cur.rollback = some rb) :
    runStep env st t = (registerRollbackTask (afterOk st t cur v) rb, Option.none) := by
  simp [runStep, hget, hskip, hres, TaskRec.run, hrb, afterOk]

theorem runStep_err (env : Env) (st : TMState) (t : String) (cur : TaskRec) (e : PyErr)
    (hget : dictGet st.tasks t = some cur)
    (hskip : (cur.hasRun && cur.success == some true) = false)
    (hres : env cur.action st = .err e) :
    runStep env st t = (afterErr st t cur, some (.taskFailed t e)) := by
  simp [runStep, hget, hskip, hres, TaskRec.run, afterErr]

/-- Running a list of names whose records carry no rollback action never
touches `_on_rollback`. -/
theorem runLoop_chain_of_chainSafe (env : Env) (st : TMState) (l : List String)
    (h : chainSafe st l) :
    ((runLoop env st l).1).onRollback = st.onRollback := by
  induction l generalizing st with
  | nil => rfl
  | cons t rest ih =>
    cases hget : dictGet st.tasks t with
    | none =>
      rw [runLoop, runStep_missing env st t hget]
    | some cur =>
      have hrb : cur.rollback = Option.none :=
        h t (List.mem_cons_self t rest) cur hget
      rcases Bool.eq_false_or_eq_true (cur.hasRun && cur.success == some true) with hskip | hskip
      case inl =>
        rw [runLoop, runStep_skip env st t cur hget hskip]
        exact ih st (fun n hn r hr => h n (List.mem_cons_of_mem t hn) r hr)
      cases hres : env cur.action st with
      | ok v =>
        rw [runLoop, runStep_ok_noRb env st t cur v hget hskip hres hrb]
        have hrest : chainSafe (afterOk st t cur v) rest := by
          intro n hn r hr
          rw [afterOk] at hr
          simp only at hr
          rw [dictGet_dictSet] at hr
          by_cases hnt : n = t
          · rw [if_pos hnt] at hr
            cases hr
            exact hrb
          · rw [if_neg hnt] at hr
            exact h n (List.mem_cons_of_mem t hn) r hr
        exact ih _ hrest
      | err e =>
        rw [runLoop, runStep_err env st t cur e hget hskip hres]
        rfl

theorem registerRollbackTask_tasks (s : TMState) (f : String) :
    (registerRollbackTask s f).tasks = dictSet s.tasks f (mkTask f Option.none) := by
  by_cases h : f ∈ s.onRollback <;>
    simp [registerRollbackTask, registerTask, tmRegister, h]

theorem registerRollbackTask_log (s : TMState) (f : String) :
    (registerRollbackTask s f).log = s.log := by
  by_cases h : f ∈ s.onRollback <;>
    simp [registerRollbackTask, registerTask, tmRegister, h]

/-- If the record stored under `tgt` has run successfully and no registered
record names `tgt` as its rollback, then the run loop leaves the record under
`tgt` untouched, preserves that condition, and appends no log entry keyed by
`tgt` (nothing is ever executed under the registry key `tgt`). -/
theorem runLoop_preserves_succeeded (env : Env) (st : TMState) (l : List String)
    (tgt : String) (rec : TaskRec)
    (hrec : dictGet st.tasks tgt = some rec)
    (hskipc : (rec.hasRun && rec.success == some true) = true)
    (hnrb : noRollbackNamed st tgt) :
    dictGet ((runLoop env st l).1).tasks tgt = some rec ∧
    noRollbackNamed (runLoop env st l).1 tgt ∧
    ∃ ext, ((runLoop env st l).1).log = st.log ++ ext ∧ ∀ p ∈ ext, p.1 ≠ tgt := by
  induction l generalizing st with
  | nil => exact ⟨hrec, hnrb, [], by simp [runLoop], by simp⟩
  | cons t rest ih =>
    by_cases htt : t = tgt
    · subst htt
      rw [runLoop, runStep_skip env st t rec hrec hskipc]
      exact ih st hrec hnrb
    · have htgt : tgt ≠ t := fun hq => htt hq.symm
      cases hget : dictGet st.tasks t with
      | none =>
        rw [runLoop, runStep_missing env st t hget]
        exact ⟨hrec, hnrb, [], by simp, by simp⟩
      | some cur =>
        rcases Bool.eq_false_or_eq_true (cur.hasRun && cur.success == some true)
          with hskip | hskip
        · rw [runLoop, runStep_skip env st t cur hget hskip]
          exact ih st hrec hnrb
        cases hres : env cur.action st with
        | ok v =>
          have hcurrb : cur.rollback ≠ some tgt := hnrb t cur hget
          cases hcrb : cur.rollback with
          | none =>
            rw [runLoop, runStep_ok_noRb env st t cur v hget hskip hres hcrb]
            have hrec2 : dictGet (afterOk st t cur v).tasks tgt = some rec := by
              rw [afterOk]
              simp only
              rw [dictGet_dictSet_ne _ _ _ _ htgt]
              exact hrec
            have hnrb2 : noRollbackNamed (afterOk st t cur v) tgt := by
              intro n r hr
              rw [afterOk] at hr
              simp only at hr
              rw [dictGet_dictSet] at hr
              by_cases hnt : n = t
              · rw [if_pos hnt] at hr
                cases hr
                rw [hcrb]
                simp
              · rw [if_neg hnt] at hr
                exact hnrb n r hr
            rcases ih (afterOk st t cur v) hrec2 hnrb2 with ⟨ha, hb, ext, hlog, hext⟩
            refine ⟨ha, hb, (t, cur.action) :: ext, ?_, ?_⟩
            · rw [hlog, afterOk]
              simp
            · intro p hp
              rcases List.mem_cons.mp hp with rfl | hp2
              · exact htt
              · exact hext p hp2
          | some rb =>
            have hrbne : rb ≠ tgt := by
              intro hq
              exact hcurrb (by rw [hcrb, hq])
            rw [runLoop, runStep_ok_rb env st t cur v rb hget hskip hres hcrb]
            have hrec2 :
                dictGet (registerRollbackTask (afterOk st t cur v) rb).tasks tgt = some rec := by
              rw [registerRollbackTask_tasks, dictGet_dictSet_ne _ _ _ _ (fun hq => hrbne hq.symm)]
              rw [afterOk]
              simp only
              rw [dictGet_dictSet_ne _ _ _ _ htgt]
              exact hrec
            have hnrb2 : noRollbackNamed (registerRollbackTask (afterOk st t cur v) rb) tgt := by
              intro n r hr
              rw [registerRollbackTask_tasks, dictGet_dictSet] at hr
              by_cases hnrbk : n = rb
              · rw [if_pos hnrbk] at hr
                cases hr
                simp [mkTask]
              · rw [if_neg hnrbk] at hr
                rw [afterOk] at hr
                simp only at hr
                rw [dictGet_dictSet] at hr
                by_cases hnt : n = t
                · rw [if_pos hnt] at hr
                  cases hr
                  rw [hcrb]
                  intro hq
                  cases hq
                  exact hrbne rfl
                · rw [if_neg hnt] at hr
                  exact hnrb n r hr
            rcases ih _ hrec2 hnrb2 with ⟨ha, hb, ext, hlog, hext⟩
            refine ⟨ha, hb, (t, cur.action) :: ext, ?_, ?_⟩
            · rw [hlog, registerRollbackTask_log, afterOk]
              simp
            · intro p hp
              rcases List.mem_cons.mp hp with rfl | hp2
              · exact htt
              · exact hext p hp2
        | err e =>
          rw [runLoop, runStep_err env st t cur e hget hskip hres]
          refine ⟨?_, ?_, [(t, cur.action)], ?_, ?_⟩
          · show dictGet (afterErr st t cur).tasks tgt = some rec
            rw [afterErr]
            simp only
            rw [dictGet_dictSet_ne _ _ _ _ htgt]
            exact hrec
          · intro n r hr
            replace hr : dictGet (afterErr st t cur).tasks n = some r := hr
            rw [afterErr] at hr
            simp only at hr
            rw [dictGet_dictSet] at hr
            by_cases hnt : n = t
            · rw [if_pos hnt] at hr
              cases hr
              exact hnrb t cur hget
            · rw [if_neg hnt] at hr
              exact hnrb n r hr
          · show (afterErr st t cur).log = st.log ++ [(t, cur.action)]
            rw [afterErr]
          · intro p hp
            rcases List.mem_cons.mp hp with rfl | hp2
            · exact htt
            · cases hp2

/-- Lemma `runLoop_preserves_succeeded` lifted to `_run_tasks` (validation included). -/
theorem runTasksCore_preserves_succeeded (env : Env) (st : TMState) (names : List String)
    (tgt : String) (rec : TaskRec)
    (hrec : dictGet st.tasks tgt = some rec)
    (hskipc : (rec.hasRun && rec.success == some true) = true)
    (hnrb : noRollbackNamed st tgt) :
    dictGet ((runTasksCore env st names).1).tasks tgt = some rec ∧
    noRollbackNamed (runTasksCore env st names).1 tgt ∧
    ∃ ext, ((runTasksCore env st names).1).log = st.log ++ ext ∧ ∀ p ∈ ext, p.1 ≠ tgt := by
  unfold runTasksCore
  cases hv : validate st names with
  | none => exact runLoop_preserves_succeeded env st names tgt rec hrec hskipc hnrb
  | some e => exact ⟨hrec, hnrb, [], by simp, by simp⟩

/-! ### The claims -/

/-- Claim C1 (code bug): the claim states that `flush_tasks` returns normally
and resets every registered record.  In the source, `flush_tasks` iterates
`self.tasks.items()` and calls `.flush()` on each `(name, Task)` tuple, so on
any non-empty registry it raises `AttributeError` at the first item and resets
nothing; it returns normally only on an empty registry.  The per-record
`Task.flush` itself does clear status and result, as the claim describes. -/
theorem C1_flush_tasks_raises_on_nonempty_registry :
    flushTasks (registerTask tmInit "a" Option.none) =
      (registerTask tmInit "a" Option.none,
       some (.attributeError "tuple object has no attribute flush")) ∧
    flushTasks tmInit = (tmInit, Option.none) ∧
    TaskRec.flush { action := "a", success := some true, hasRun := true,
                    output := Val.str "x", rollback := Option.none } =
      mkTask "a" Option.none := by
  exact ⟨by decide, by decide, by decide⟩

/-- Claim C2 (code bug): the claim states that the memoized result is defined
iff the most recent execution attempt completed without raising.  In the
source, `Task.run` leaves `_output` unmodified when the action raises, so a
record that succeeded with output `"x"` and whose re-execution raises ends up
with `_success = False` while `get_output()` still returns the stale `"x"`. -/
theorem C2_failed_rerun_keeps_stale_result :
    ((mkTask "t" Option.none).run (.ok (.str "x"))).1.isSuccess = some true ∧
    ((mkTask "t" Option.none).run (.ok (.str "x"))).1.getOutput = .str "x" ∧
    (((mkTask "t" Option.none).run (.ok (.str "x"))).1.run (.err (.user "boom"))).2 =
      some (.user "boom") ∧
    (((mkTask "t" Option.none).run (.ok (.str "x"))).1.run (.err (.user "boom"))).1.isSuccess =
      some false ∧
    (((mkTask "t" Option.none).run (.ok (.str "x"))).1.run (.err (.user "boom"))).1.getOutput =
      .str "x" := by
  decide

/-- Claim C3, counterexample: looking up a registered task that never ran does
NOT fail — `get_output_for` returns the record's `_output` (Python `None`)
without raising, contrary to the claim that it "fails rather than returning a
value". -/
theorem C3_counterexample_lookup_never_run_returns_none :
    (dictGet (registerTask tmInit "a" Option.none).tasks "a").map TaskRec.hasRunQ =
      some false ∧
    getOutputFor (registerTask tmInit "a" Option.none) "a" = .ok Val.none ∧
    ¬ ∃ e, getOutputFor (registerTask tmInit "a" Option.none) "a" = .error e := by
  refine ⟨by decide, by rfl, ?_⟩
  rintro ⟨e, he⟩
  have hok : getOutputFor (registerTask tmInit "a" Option.none) "a" = .ok Val.none := by
    rfl
  rw [hok] at he
  cases he

/-- Claim C3 (amended): `get_output_for` fails (with the not-found error)
exactly when the name is unregistered; for every registered name it returns
the record's stored `_output` without error — `None` when the task never
successfully ran, or a possibly stale previous value. -/
theorem C3_lookup_fails_iff_unregistered :
    ∀ (st : TMState) (name : String),
      ((∃ e, getOutputFor st name = .error e) ↔ dictGet st.tasks name = Option.none) ∧
      (∀ r, dictGet st.tasks name = some r → getOutputFor st name = .ok r.output) := by
  intro st name
  constructor
  · constructor
    · rintro ⟨e, he⟩
      cases h : dictGet st.tasks name with
      | none => rfl
      | some r =>
        unfold getOutputFor at he
        rw [h] at he
        cases he
    · intro h
      refine ⟨.notFound name, ?_⟩
      unfold getOutputFor
      rw [h]
  · intro r h
    unfold getOutputFor
    rw [h]
    rfl

/-- Witness for C3: instantiation at a concrete registered task. -/
theorem C3_lookup_fails_iff_unregistered_witness :
    getOutputFor (registerTask tmInit "a" Option.none) "a" =
      .ok (mkTask "a" Option.none).output :=
  (C3_lookup_fails_iff_unregistered (registerTask tmInit "a" Option.none) "a").2
    (mkTask "a" Option.none) (by decide)

/-- Claim C4, counterexample: with a leftover compensation chain `["rA"]` from
a successful earlier batch, calling `run_tasks` with an unregistered name does
raise the unknown-task error, but `run_tasks`'s failure handler first runs the
compensation chain, so `rA`'s action executes and its record changes —
contrary to the claim that no compensation-chain action is invoked and every
record is unchanged. -/
theorem C4_counterexample_validation_failure_runs_rollback_chain :
    st4.onRollback = ["rA"] ∧
    st4.log = [("A", "A")] ∧
    (dictGet st4.tasks "rA").map TaskRec.hasRunQ = some false ∧
    (runTasks env4 st4 ["missing"]).2 = some (.unknownTask "missing") ∧
    (runTasks env4 st4 ["missing"]).1.log = [("A", "A"), ("rA", "rA")] ∧
    (dictGet (runTasks env4 st4 ["missing"]).1.tasks "rA").map TaskRec.hasRunQ =
      some true := by
  decide

/-- Claim C4 (amended): when some requested name is unregistered, `_run_tasks`
raises an unknown-task error from its validation phase with the state (records,
chain and ghost log) completely untouched — so no requested task's action runs;
but the public `run_tasks` then executes the existing compensation chain on
that untouched state before the error reaches the caller, and the surfaced
error is the unknown-task error only when the compensation run itself raised
nothing. -/
theorem C4_unknown_name_fails_validation_but_chain_runs :
    ∀ (env : Env) (st : TMState) (names : List String) (n : String),
      n ∈ names → dictGet st.tasks n = Option.none →
      ∃ t, dictGet st.tasks t = Option.none ∧
        runTasksCore env st names = (st, some (.unknownTask t)) ∧
        runTasks env st names =
          ((rollbackDependencies env st).1,
           some (((rollbackDependencies env st).2).getD (.unknownTask t))) := by
  intro env st names n hmem hmiss
  rcases validate_fails_of_missing st names n hmem hmiss with ⟨t, hv, ht⟩
  have hcore : runTasksCore env st names = (st, some (.unknownTask t)) := by
    unfold runTasksCore
    rw [hv]
  refine ⟨t, ht, hcore, ?_⟩
  unfold runTasks
  rw [hcore]
  rcases hr : rollbackDependencies env st with ⟨st2, r2⟩
  cases r2 <;> simp [hr, Option.getD]

/-- Witness for C4: instantiation at the concrete counterexample state. -/
theorem C4_unknown_name_fails_validation_but_chain_runs_witness :
    ∃ t, dictGet st4.tasks t = Option.none ∧
      runTasksCore env4 st4 ["missing"] = (st4, some (.unknownTask t)) ∧
      runTasks env4 st4 ["missing"] =
        ((rollbackDependencies env4 st4).1,
         some (((rollbackDependencies env4 st4).2).getD (.unknownTask t))) :=
  C4_unknown_name_fails_validation_but_chain_runs env4 st4 ["missing"] "missing"
    (by decide) (by decide)

/-- Claim C5: when the execution phase of a batch fails, the public
`run_tasks` first runs the compensation chain and then re-raises the original
failure (same error value, task name and cause preserved), unless the
compensation run itself raised, in which case that error surfaces instead
(`Option.getD` selects the compensation error when present); and when
compensation fails at some chain entry `t`, the whole compensation call equals
the run stopped at `t` — the remaining entries `l2` are abandoned and never
affect state or error. -/
theorem C5_compensation_then_reraise_original :
    ∀ (env : Env) (st st1 : TMState) (names : List String) (e : PyErr),
      runTasksCore env st names = (st1, some e) →
      (runTasks env st names =
        ((rollbackDependencies env st1).1,
         some (((rollbackDependencies env st1).2).getD e))) ∧
      (∀ (l1 : List String) (t : String) (l2 : List String) (s3 : TMState) (e3 : PyErr),
        st1.onRollback = l1 ++ t :: l2 →
        validate st1 st1.onRollback = Option.none →
        runLoop env st1 (l1 ++ [t]) = (s3, some e3) →
        rollbackDependencies env st1 = (s3, some e3)) := by
  intro env st st1 names e hcore
  constructor
  · unfold runTasks
    rw [hcore]
    rcases hr : rollbackDependencies env st1 with ⟨st2, r2⟩
    cases r2 <;> simp [hr, Option.getD]
  · intro l1 t l2 s3 e3 hchain hval hfail
    unfold rollbackDependencies runTasksCore
    rw [hval, hchain]
    rw [show l1 ++ t :: l2 = (l1 ++ [t]) ++ l2 by simp, runLoop_append, hfail]

/-- Witness for C5: tasks `a1 a2 a3` succeed (chain `["r3","r2","r1"]`), `f`
fails, compensation runs `r3` then fails at `r2`, abandoning `r1`. -/
theorem C5_compensation_then_reraise_original_witness :
    (runTasks envC5 stC5 ["a1", "a2", "a3", "f"] =
      ((rollbackDependencies envC5 st1C5).1,
       some (((rollbackDependencies envC5 st1C5).2).getD
         (.taskFailed "f" (.user "boom"))))) ∧
    rollbackDependencies envC5 st1C5 = (s3C5, some (.taskFailed "r2" (.user "boom"))) := by
  have h := C5_compensation_then_reraise_original envC5 stC5 st1C5
    ["a1", "a2", "a3", "f"] (.taskFailed "f" (.user "boom")) (by decide)
  exact ⟨h.1, h.2 ["r3"] "r2" ["r1"] s3C5 (.taskFailed "r2" (.user "boom"))
    (by decide) (by decide) (by decide)⟩

/-- Claim C6: LIFO compensation.  Concretely: with `A` (rollback `rA`) and `B`
(rollback `rB`) succeeding and `C` failing, the invocation trace runs `rB`
strictly before `rA` and the chain built by the execution phase is
`["rB", "rA"]`.  Generally: a successful execution of a record carrying
rollback `r` prepends `r` to the front of `_on_rollback` unless it is already
present (deduplication by name); the chain is then consumed front-to-back by
the run loop. -/
theorem C6_lifo_compensation :
    ((runTasks envA stABC ["A", "B", "C"]).1.log =
        [("A", "A"), ("B", "B"), ("C", "C"), ("rB", "rB"), ("rA", "rA")] ∧
      (runTasksCore envA stABC ["A", "B", "C"]).1.onRollback = ["rB", "rA"]) ∧
    (∀ (env : Env) (st : TMState) (t : String) (cur : TaskRec) (r : String) (v : Val),
      dictGet st.tasks t = some cur →
      (cur.hasRun && cur.success == some true) = false →
      env cur.action st = .ok v →
      cur.rollback = some r →
      (runStep env st t).1.onRollback =
        (if r ∈ st.onRollback then st.onRollback else r :: st.onRollback)) := by
  constructor
  · exact ⟨by decide, by decide⟩
  · intro env st t cur r v hget hskip hres hrb
    rw [runStep_ok_rb env st t cur v r hget hskip hres hrb]
    by_cases hmem : r ∈ st.onRollback <;>
      simp [registerRollbackTask, registerTask, tmRegister, afterOk, hmem]

/-- Witness for C6's general conjunct: running `A` on the initial state
prepends its rollback name `rA` to the (empty) chain. -/
theorem C6_lifo_compensation_witness :
    (runStep envA stABC "A").1.onRollback =
      (if "rA" ∈ stABC.onRollback then stABC.onRollback
       else "rA" :: stABC.onRollback) :=
  C6_lifo_compensation.2 envA stABC "A" (mkTask "A" (some "rA")) "rA" (.str "A")
    (by decide) (by decide) (by rfl) (by decide)

/-- Claim C7, counterexample: executing the compensation chain CAN re-trigger
chain construction.  After `a` (rollback `ra`) succeeds, the chain is
`["ra"]`; re-registering the name `ra` with `register_task(..., rollback=rb2)`
and then running the failing task `f` makes the compensation phase execute the
overwritten `ra` record, whose success registers `rb2` and prepends it — the
chain grows from `["ra"]` to `["rb2", "ra"]` during compensation (the
execution phase itself left it at `["ra"]`). -/
theorem C7_counterexample_compensation_extends_chain :
    st7.onRollback = ["ra"] ∧
    (runTasksCore env7 st7 ["f"]).1.onRollback = ["ra"] ∧
    (runTasksCore env7 st7 ["f"]).2 = some (.taskFailed "f" (.user "boom")) ∧
    (runTasks env7 st7 ["f"]).1.onRollback = ["rb2", "ra"] := by
  decide

/-- Claim C7 (amended): provided every record named by the compensation chain
carries no rollback action — which holds whenever those records were created by
the engine's own rollback registration and not since overwritten via
`register_task` — executing the chain adds and removes no name:
`_on_rollback` is exactly preserved by `_rollback_dependencies`. -/
theorem C7_chain_unchanged_when_entries_carry_no_rollback :
    ∀ (env : Env) (st : TMState),
      chainSafe st st.onRollback →
      ((rollbackDependencies env st).1).onRollback = st.onRollback := by
  intro env st h
  unfold rollbackDependencies runTasksCore
  cases hv : validate st st.onRollback with
  | none => exact runLoop_chain_of_chainSafe env st st.onRollback h
  | some e => rfl

/-- Witness for C7: the chain `["rA"]` of `st4` (whose `rA` record carries no
rollback) is preserved by the compensation run. -/
theorem C7_chain_unchanged_when_entries_carry_no_rollback_witness :
    ((rollbackDependencies env4 st4).1).onRollback = st4.onRollback := by
  refine C7_chain_unchanged_when_entries_carry_no_rollback env4 st4 ?_
  intro n hn r hr
  have hchain : st4.onRollback = ["rA"] := by decide
  rw [hchain] at hn
  rcases List.mem_singleton.mp hn with rfl
  have hra : dictGet st4.tasks "rA" = some (mkTask "rA" Option.none) := by decide
  rw [hra] at hr
  cases hr
  rfl

/-- Claim C8, counterexample: a batch CAN re-run a task whose record had
status Succeeded and change its record.  With `T` succeeded (output `"x"`) and
a task `A` whose rollback callable is named `T`, running `["A", "T"]` makes
`A`'s success overwrite the record under `T` with a fresh one, so the loop
then executes under key `T` again: callable `T` appears twice in the trace and
the record under `T` ends with output `"y"` ≠ `"x"`. -/
theorem C8_counterexample_rollback_overwrite_reruns_succeeded_task :
    dictGet st8.tasks "T" =
      some { action := "T", success := some true, hasRun := true,
             output := .str "x", rollback := Option.none } ∧
    (runTasks env8 st8 ["A", "T"]).2 = Option.none ∧
    (runTasks env8 st8 ["A", "T"]).1.log = [("T", "T"), ("A", "A"), ("T", "T")] ∧
    dictGet (runTasks env8 st8 ["A", "T"]).1.tasks "T" =
      some { action := "T", success := some true, hasRun := true,
             output := .str "y", rollback := Option.none } := by
  decide

/-- Claim C8 (amended): for a record under name `tgt` with status Succeeded
(`has_run` and `is_success`), any `run_tasks` call — whatever its name list —
leaves the record under `tgt` exactly unchanged and never executes anything
under the registry key `tgt` (no ghost-log entry keyed `tgt` is added),
provided no registered record names `tgt` as its rollback callable (otherwise
the record can be silently overwritten mid-batch, as the counterexample
shows). -/
theorem C8_succeeded_task_skipped_and_unchanged :
    ∀ (env : Env) (st : TMState) (names : List String) (tgt : String) (rec : TaskRec),
      dictGet st.tasks tgt = some rec →
      rec.hasRun = true →
      rec.success = some true →
      noRollbackNamed st tgt →
      dictGet ((runTasks env st names).1).tasks tgt = some rec ∧
      ∃ ext, ((runTasks env st names).1).log = st.log ++ ext ∧
        ∀ p ∈ ext, p.1 ≠ tgt := by
  intro env st names tgt rec hget hrun hsucc hnrb
  have hskipc : (rec.hasRun && rec.success == some true) = true := by
    rw [hrun, hsucc]
    rfl
  have h1 := runTasksCore_preserves_succeeded env st names tgt rec hget hskipc hnrb
  unfold runTasks
  rcases hcore : runTasksCore env st names with ⟨st1, e?⟩
  rw [hcore] at h1
  rcases h1 with ⟨h1a, h1b, ext1, h1log, h1ext⟩
  cases e? with
  | none => exact ⟨h1a, ext1, h1log, h1ext⟩
  | some e =>
    have h2 := runTasksCore_preserves_succeeded env st1 st1.onRollback tgt rec
      h1a hskipc h1b
    rcases hr : rollbackDependencies env st1 with ⟨st2, r2⟩
    have hr2 : runTasksCore env st1 st1.onRollback = (st2, r2) := hr
    rw [hr2] at h2
    rcases h2 with ⟨h2a, _, ext2, h2log, h2ext⟩
    have hlog : st2.log = st.log ++ (ext1 ++ ext2) := by
      rw [h2log, h1log, List.append_assoc]
    have hext : ∀ p ∈ ext1 ++ ext2, p.1 ≠ tgt := by
      intro p hp
      rcases List.mem_append.mp hp with hp1 | hp2
      · exact h1ext p hp1
      · exact h2ext p hp2
    cases r2 with
    | none =>
      simp only [hr]
      exact ⟨h2a, ext1 ++ ext2, hlog, hext⟩
    | some e2 =>
      simp only [hr]
      exact ⟨h2a, ext1 ++ ext2, hlog, hext⟩

/-- Witness for C8: on a manager whose only record is the succeeded `T`
(rollback-free), re-running `["T"]` leaves the record unchanged and adds no
trace entry under `T`. -/
theorem C8_succeeded_task_skipped_and_unchanged_witness :
    dictGet ((runTasks env8 st8base ["T"]).1).tasks "T" =
      some { action := "T", success := some true, hasRun := true,
             output := .str "x", rollback := Option.none } ∧
    ∃ ext, ((runTasks env8 st8base ["T"]).1).log = st8base.log ++ ext ∧
      ∀ p ∈ ext, p.1 ≠ "T" := by
  refine C8_succeeded_task_skipped_and_unchanged env8 st8base ["T"] "T"
    { action := "T", success := some true, hasRun := true,
      output := .str "x", rollback := Option.none }
    (by decide) (by decide) (by decide) ?_
  intro n r hr
  have htasks : st8base.tasks =
      [("T", { action := "T", success := some true, hasRun := true,
               output := .str "x", rollback := Option.none })] := by
    decide
  rw [htasks] at hr
  unfold dictGet at hr
  rw [List.find?_singleton] at hr
  split at hr
  · simp only [Option.map] at hr
    cases hr
    decide
  · simp at hr

/-- Claim C9: abort on failure.  If every requested name validates, the loop
reaches `b` (after `pre` completed without error) with a non-skipped record
whose action raises `cause`, then the whole execution phase equals the run
stopped at `b` — whatever follows `b` in the list contributes nothing — the
surfaced error is the task-failed error tagged `b` wrapping `cause`, and the
final trace ends at `b`'s invocation. -/
theorem C9_abort_on_failure :
    ∀ (env : Env) (st st1 : TMState) (pre post : List String) (b : String)
      (cur : TaskRec) (cause : PyErr),
      (∀ n ∈ pre ++ b :: post, (dictGet st.tasks n).isSome = true) →
      runLoop env st pre = (st1, Option.none) →
      dictGet st1.tasks b = some cur →
      (cur.hasRun && cur.success == some true) = false →
      env cur.action st1 = .err cause →
      runTasksCore env st (pre ++ b :: post) =
        (afterErr st1 b cur, some (.taskFailed b cause)) ∧
      (afterErr st1 b cur).log = st1.log ++ [(b, cur.action)] := by
  intro env st st1 pre post b cur cause hall hpre hget hskip hres
  constructor
  · unfold runTasksCore
    rw [validate_eq_none st _ hall]
    rw [show pre ++ b :: post = (pre ++ [b]) ++ post by simp]
    rw [runLoop_append, runLoop_append, hpre]
    simp only []
    rw [runLoop, runStep_err env st1 b cur cause hget hskip hres]
  · rfl

/-- Witness for C9: on `stABC` under `env9` (`B` raises), the batch
`["A", "B", "C"]` stops at `B` and never reaches `C`. -/
theorem C9_abort_on_failure_witness :
    runTasksCore env9 stABC (["A"] ++ "B" :: ["C"]) =
      (afterErr st9 "B" (mkTask "B" (some "rB")), some (.taskFailed "B" (.user "boomB"))) ∧
    (afterErr st9 "B" (mkTask "B" (some "rB"))).log =
      st9.log ++ [("B", "B")] :=
  C9_abort_on_failure env9 stABC st9 ["A"] ["C"] "B" (mkTask "B" (some "rB"))
    (.user "boomB") (by decide) (by decide) (by decide) (by decide) (by rfl)

/-- Claim C10: whenever a non-skipped record under key `t` carrying rollback
callable `r` executes successfully in the run loop, the step raises nothing
and afterwards the registry maps `r` (the rollback callable's own name) to a
fresh record — `Task(action=r)` with clear status, `None` output and no
rollback of its own — regardless of what was previously registered under `r`
(silent overwrite; the quantification over `st` covers any prior record). -/
theorem C10_rollback_registered_as_fresh_record :
    ∀ (env : Env) (st : TMState) (t : String) (cur : TaskRec) (r : String) (v : Val),
      dictGet st.tasks t = some cur →
      (cur.hasRun && cur.success == some true) = false →
      env cur.action st = .ok v →
      cur.rollback = some r →
      (runStep env st t).2 = Option.none ∧
      dictGet ((runStep env st t).1).tasks r = some (mkTask r Option.none) := by
  intro env st t cur r v hget hskip hres hrb
  rw [runStep_ok_rb env st t cur v r hget hskip hres hrb]
  refine ⟨rfl, ?_⟩
  rw [registerRollbackTask_tasks, dictGet_dictSet_self]

/-- Witness for C10: running `A` (rollback callable `rA`) on `stABC` registers
a fresh rollback-free record under `rA`. -/
theorem C10_rollback_registered_as_fresh_record_witness :
    (runStep envA stABC "A").2 = Option.none ∧
    dictGet ((runStep envA stABC "A").1).tasks "rA" = some (mkTask "rA" Option.none) :=
  C10_rollback_registered_as_fresh_record envA stABC "A" (mkTask "A" (some "rA"))
    "rA" (.str "A") (by decide) (by decide) (by rfl) (by decide)
